import Mathlib

/-!
Verification development for the core of the py-hoordu media-archiving
framework. The definitions below are a shallow embedding of
`hoordu/hoordu.py` (storage manager and service registry) and
`hoordu/plugins/base.py` (subscription / iterator protocol and the plugin
contract). Entities and session semantics that live in modules not included
in the sources (`hoordu/models`, `hoordu/util`, SQLAlchemy sessions) are
modelled from the specification, and say so in their doc comments.
-/

set_option autoImplicit false
set_option linter.unusedVariables false

/-! ## Python string / pathlib helpers used by `import_file`

`import_file` derives `file.ext` with
`''.join(pathlib.Path(orig).suffixes)[1:]`.  We embed the relevant
`pathlib` semantics over `List Char`: `str.split(sep)` (no empty-part
removal), `str.lstrip('.')`, `Path.name` (last non-empty `/`-separated
component) and `Path.suffixes` (CPython: empty when the name ends in a dot,
otherwise one `.suffix` per dot-separated part of the name after the
stripped leading dots, excluding the stem). -/

/-- Embedding of Python `str.split(c)`: splits on every occurrence of `c`,
keeping empty parts, so the result is always non-empty. -/
def splitOnChar (c : Char) : List Char → List (List Char)
  | [] => [[]]
  | x :: xs =>
    if x = c then
      [] :: splitOnChar c xs
    else
      match splitOnChar c xs with
      | [] => [[x]]
      | p :: ps => (x :: p) :: ps

/-- Embedding of Python `str.lstrip('.')`: drops every leading dot. -/
def lstripDot : List Char → List Char
  | [] => []
  | c :: cs => if c = '.' then lstripDot cs else c :: cs

/-- Embedding of `pathlib.Path(p).name`: the last non-empty `/`-separated
component of the path (empty for paths such as `/` or the empty path). -/
def pathName (p : List Char) : List Char :=
  ((splitOnChar '/' p).filter (fun part => part ≠ [])).getLastD []

/-- Embedding of `pathlib.Path.suffixes` applied to a file name (CPython:
if the name ends with a dot the list is empty; otherwise leading dots are
stripped and every dot-separated part except the first becomes a suffix,
with its leading dot re-attached). -/
def nameSuffixes (name : List Char) : List (List Char) :=
  if name.getLast? = some '.' then
    []
  else
    ((splitOnChar '.' (lstripDot name)).drop 1).map (fun s => '.' :: s)

/-- Value stored by `import_file` into `file.ext`:
`''.join(pathlib.Path(orig).suffixes)[1:]` over the characters of the
original path. -/
def importExt (orig : List Char) : List Char :=
  ((nameSuffixes (pathName orig)).flatten).drop 1

/-- String-level version of `importExt`, as assigned to `file.ext`. -/
def importExtS (orig : String) : String :=
  ⟨importExt orig.data⟩

/-! ## Storage manager (`hoordu/hoordu.py`) -/

/-- Modelled from the spec: the persisted `File` entity
(`hoordu/models`, not included in the sources): `id` (assigned by the
persistent store before any path is computed), `hash`, `mime`, `ext`,
`file_present`, `thumb_present`.  The claims only concern Files whose `id`
is already assigned, so `id` is a plain `Nat` here. -/
structure File where
  id : Nat
  hash : String
  mime : String
  ext : String
  file_present : Bool
  thumb_present : Bool
deriving DecidableEq, Repr

/-- Configuration of the `hoordu` core object: `base_path` and
`files_slot_size`, the two configuration values read by the storage
manager. -/
structure Config where
  base_path : String
  files_slot_size : Nat
deriving DecidableEq, Repr

/-- From `hoordu.__init__`: `self.filespath = '{}/files'.format(self.config.base_path)`. -/
def hoordu.filespath (c : Config) : String :=
  c.base_path ++ "/files"

/-- From `hoordu.__init__`: `self.thumbspath = '{}/thumbs'.format(self.config.base_path)`. -/
def hoordu.thumbspath (c : Config) : String :=
  c.base_path ++ "/thumbs"

/-- Embedding of `hoordu._file_slot`: `file.id // self.config.files_slot_size`. -/
def hoordu.file_slot (c : Config) (file : File) : Nat :=
  file.id / c.files_slot_size

/-- Embedding of `hoordu._get_file_paths`.  The source computes the same
original path in both branches of `if file.ext:`; the branch is kept here
exactly as written. -/
def hoordu.get_file_paths (c : Config) (file : File) : String × String :=
  let file_slot := hoordu.file_slot c file
  let filepath :=
    if file.ext ≠ "" then
      hoordu.filespath c ++ "/" ++ toString file_slot ++ "/" ++ toString file.id
    else
      hoordu.filespath c ++ "/" ++ toString file_slot ++ "/" ++ toString file.id
  let thumbpath :=
    hoordu.thumbspath c ++ "/" ++ toString file_slot ++ "/" ++ toString file.id ++ ".jpg"
  (filepath, thumbpath)

/-- Environment for the external hasher/classifier collaborators used by
`import_file`: `md5(path)` and `mime_from_file(path)` (from `hoordu/util`,
not included in the sources; the spec treats them as an external
hasher/classifier whose outputs populate file metadata). -/
structure Env where
  md5 : String → String
  mime_from_file : String → String

/-- Outcome chosen by the filesystem for the two transfer blocks of a
single `import_file` call: whether the original's `mkdir`+`move/copy`
block succeeds, and whether the thumbnail's block succeeds.  A `false`
models the block raising an I/O error. -/
structure FsOutcome where
  origOk : Bool
  thumbOk : Bool
deriving DecidableEq, Repr

/-- Result of an `import_file` call: the final state of the mutated `File`
record, whether the call returned normally (`ok = false` models an
uncaught I/O exception propagating to the caller), and the list of
`(source, destination)` transfer attempts made, in order. -/
structure ImportResult where
  file : File
  ok : Bool
  attempts : List (String × String)

/-- Thumbnail block of `import_file`: if `thumb` is given, attempt the
transfer to `tdst` and set `thumb_present` on success; an I/O failure
propagates.  `acc` carries the transfer attempts already made. -/
def hoordu.importThumbStep (fs : FsOutcome) (file : File) (thumb : Option String)
    (tdst : String) (acc : List (String × String)) : ImportResult :=
  match thumb with
  | none => { file := file, ok := true, attempts := acc }
  | some t =>
    if fs.thumbOk then
      { file := { file with thumb_present := true },
        ok := true, attempts := acc ++ [(t, tdst)] }
    else
      { file := file, ok := false, attempts := acc ++ [(t, tdst)] }

/-- Embedding of `hoordu.import_file(file, orig, thumb, move)`:
if `orig` is given, overwrite `hash`, `mime` and `ext` from it; compute the
destination paths; if `orig` is given, transfer it and set `file_present`
on success (on failure the exception propagates and the thumbnail block
never runs); then, if `thumb` is given, transfer it and set
`thumb_present` on success.  The `move` flag only selects
`shutil.move` versus `shutil.copy` and does not affect the record. -/
def hoordu.import_file (c : Config) (env : Env) (fs : FsOutcome)
    (file : File) (orig : Option String) (thumb : Option String) (mv : Bool) :
    ImportResult :=
  let file :=
    match orig with
    | some o =>
      { file with
        hash := env.md5 o
        mime := env.mime_from_file o
        ext := importExtS o }
    | none => file
  let dsts := hoordu.get_file_paths c file
  match orig with
  | some o =>
    if fs.origOk then
      hoordu.importThumbStep fs { file with file_present := true } thumb dsts.2 [(o, dsts.1)]
    else
      { file := file, ok := false, attempts := [(o, dsts.1)] }
  | none => hoordu.importThumbStep fs file thumb dsts.2 []

/-! ## Service registry and session (`hoordu.register_service`) -/

/-- Modelled from the spec: the persisted `Service` entity
(`hoordu/models`, not included in the sources): unique `name`, integer
`version`; the identifier is assigned by the store at flush time, so it is
`none` until the row has been flushed. -/
structure Service where
  id : Option Nat
  name : String
  version : Nat
deriving DecidableEq, Repr

/-- Modelled from the spec: the opaque, order-preserving key-value data
used for plugin `options` and `state` (`Dynamic`, defined in
`hoordu/models` / `hoordu/util`, not included in the sources).  Nested
container values are abstracted into the entry values; the claims under
verification never inspect entry contents. -/
structure Dyn where
  entries : List (String × String)
deriving DecidableEq, Repr

/-- Modelled from the spec: the transport-safe serialized text form of a
`Dynamic`.  The spec requires only that serialization is lossless
(round-trippable), so the serialized form is modelled as a snapshot of the
structured data itself, wrapped in its own type so that serialized and
live values cannot be confused. -/
structure DynJson where
  data : Dyn
deriving DecidableEq, Repr

/-- Modelled from the spec: `Dynamic().`, the empty structure created for
the state of an ephemeral iterator. -/
def Dyn.empty : Dyn := ⟨[]⟩

/-- Modelled from the spec: `Dynamic.to_json`, serialization to the
transport-safe form. -/
def Dyn.to_json (d : Dyn) : DynJson := ⟨d⟩

/-- Modelled from the spec: `Dynamic.from_json`, deserialization from the
transport-safe form; a left inverse of `Dynamic.to_json` by construction,
as the spec's round-trip requirement demands. -/
def Dyn.from_json (j : DynJson) : Dyn := j.data

/-- Modelled from the spec: the persisted `Subscription` entity
(`hoordu/models`, not included in the sources): a reference to its
`Service`, a caller-chosen `name`, the adapter-computed `repr`, and the
frozen serialized `options` and `state`.  The identifier is assigned at
flush time. -/
structure Subscription where
  id : Option Nat
  source : Service
  name : String
  repr : String
  options : DynJson
  state : DynJson
deriving DecidableEq, Repr

/-- Modelled from the spec: the persistent store's unit of work
(SQLAlchemy session, used as an opaque unit-of-work with add/flush/commit
semantics).  `services` and `subs` are the persisted rows in insertion
order; `nextId` is the next identifier the store hands out at flush. -/
structure Session where
  services : List Service
  subs : List Subscription
  nextId : Nat
deriving DecidableEq, Repr

/-- Modelled from the spec: `session.add(service)` followed by
`session.flush()` — the staged `Service` row obtains an identifier and
becomes visible to queries on this session. -/
def Session.addFlushService (s : Session) (sv : Service) : Service × Session :=
  let sv := { sv with id := some s.nextId }
  (sv, { s with services := s.services ++ [sv], nextId := s.nextId + 1 })

/-- Modelled from the spec: `session.add(sub)` followed by
`session.flush()` for a `Subscription` row. -/
def Session.addFlushSub (s : Session) (sub : Subscription) : Subscription × Session :=
  let sub := { sub with id := some s.nextId }
  (sub, { s with subs := s.subs ++ [sub], nextId := s.nextId + 1 })

/-- Well-formedness of a session's service table: every persisted row has
an identifier, and every identifier already handed out is below the next
one the store will assign.  This holds for every session produced by the
store and is preserved by the operations modelled here. -/
def Session.WF (s : Session) : Prop :=
  ∀ sv ∈ s.services, sv.id.isSome = true ∧ sv.id.getD 0 < s.nextId

instance (s : Session) : Decidable (Session.WF s) := by
  unfold Session.WF
  infer_instance

/-- Embedding of `hoordu.register_service(name)`: query the session for a
`Service` with this name (`one_or_none`, modelled as the first match —
the registry itself never creates a second row for a name); if found,
return it unchanged; otherwise create `Service(name=name, version=0)`,
add it and flush before returning it. -/
def hoordu.register_service (s : Session) (name : String) : Service × Session :=
  match s.services.find? (fun sv => sv.name == name) with
  | some sv => (sv, s)
  | none =>
    let sv : Service := { id := none, name := name, version := 0 }
    s.addFlushService sv

/-! ## Plugin contract (`hoordu/plugins/base.py`)

Python dispatches plugin methods through the class hierarchy.  The
embedding carries the plugin's class as a `PluginKind` and resolves each
call the way Python method resolution does: `ReverseSearchPluginBase`
overrides `search`, `get_iterator` and a method named
`create_subscription`; every other method — `subscribe` included — is
inherited from `PluginBase`. -/

/-- Failure modes of the embedded plugin operations:
`notImplemented` models `raise NotImplementedError`; `typeError` models
calling `self.iterator(...)` when the class attribute `iterator` is
`None`; `attributeError` models calling `.to_json()` on a `None`
options value. -/
inductive Err where
  | notImplemented
  | typeError
  | attributeError
deriving DecidableEq, Repr

/-- Behavior of a concrete iterator class: its `init` override (the
`IteratorBase.init` default, `pass`, is `fun o s => (o, s)`), acting on the
iterator's current `options` and `state`. -/
structure Adapter where
  initFn : Option Dyn → Dyn → Option Dyn × Dyn

/-- The two plugin classes of `hoordu/plugins/base.py`. -/
inductive PluginKind where
  | base
  | reverseSearch
deriving DecidableEq, Repr

/-- A plugin instance: its class, the `iterator` class attribute (`none`
models the `iterator = None` default), the `Service` row it is bound to
(`self.source`), and its `subscription_repr` implementation (part of the
adapter contract; total here, as the spec's capability set requires every
adapter to implement it). -/
structure Plugin where
  kind : PluginKind
  iterator : Option Adapter
  source : Service
  reprFn : Option Dyn → String

/-- An iterator object: the concrete iterator class behavior it carries,
and the `subscription`, `options` and `state` attributes set by
`IteratorBase.__init__` and mutated by later calls. -/
structure Iterator where
  adapter : Adapter
  subscription : Option Subscription
  options : Option Dyn
  state : Dyn

/-- Embedding of `IteratorBase.__init__(plugin, subscription=None,
options=None)`: with a subscription, `options` and `state` are deserialized
from its stored values; without one, `options` is the supplied argument
and `state` starts as an empty `Dynamic()`. -/
def IteratorBase.make (ad : Adapter) (subscription : Option Subscription)
    (options : Option Dyn) : Iterator :=
  match subscription with
  | some sub =>
    { adapter := ad
      subscription := some sub
      options := some (Dyn.from_json sub.options)
      state := Dyn.from_json sub.state }
  | none =>
    { adapter := ad
      subscription := none
      options := options
      state := Dyn.empty }

/-- Observable context threaded through the plugin operations: the
session, plus a count of how many times some iterator's `init()` has been
invoked (instrumentation for the lifecycle claims; nothing in the
embedded code reads it). -/
structure Ctx where
  session : Session
  initCalls : Nat

/-- Embedding of `iterator.init()`: runs the concrete class's `init`
override on the iterator's `options`/`state` and records the invocation. -/
def Iterator.runInit (it : Iterator) (ctx : Ctx) : Iterator × Ctx :=
  let r := it.adapter.initFn it.options it.state
  ({ it with options := r.1, state := r.2 },
   { ctx with initCalls := ctx.initCalls + 1 })

/-- Embedding of `PluginBase.search(options)`: raise `NotImplementedError`
if the class has no iterator; otherwise deserialize the options and
construct an ephemeral iterator.  The session is untouched. -/
def PluginBase.search (p : Plugin) (options : DynJson) (ctx : Ctx) :
    Except Err (Iterator × Ctx) :=
  match p.iterator with
  | none => .error .notImplemented
  | some ad =>
    let options := Dyn.from_json options
    .ok (IteratorBase.make ad none (some options), ctx)

/-- Body shared by `PluginBase.subscribe` after the iterator to use is
determined: run `init()`, compute `subscription_repr(iterator.options)`,
build the `Subscription` row from the frozen serialized `options`/`state`,
add and flush it, bind it to the iterator and return the iterator.
Serializing a `None` options value raises (`attributeError`), after
`init()` has already run. -/
def PluginBase.subscribeGo (p : Plugin) (name : String) (it : Iterator) (ctx : Ctx) :
    Except Err (Iterator × Ctx) :=
  let r := Iterator.runInit it ctx
  let it := r.1
  let ctx := r.2
  let rep := p.reprFn it.options
  match it.options with
  | none => .error .attributeError
  | some opts =>
    let sub : Subscription :=
      { id := none
        source := p.source
        name := name
        repr := rep
        options := opts.to_json
        state := it.state.to_json }
    let fl := ctx.session.addFlushSub sub
    .ok ({ it with subscription := some fl.1 }, { ctx with session := fl.2 })

/-- Embedding of `PluginBase.subscribe(name, options=None, iterator=None)`:
if no iterator is supplied, construct an ephemeral one from `options`
via the class's iterator attribute (`TypeError` when that attribute is
`None`); then proceed as in `subscribeGo`. -/
def PluginBase.subscribe (p : Plugin) (name : String) (options : Option Dyn)
    (iteratorArg : Option Iterator) (ctx : Ctx) : Except Err (Iterator × Ctx) :=
  match iteratorArg with
  | some it => PluginBase.subscribeGo p name it ctx
  | none =>
    match p.iterator with
    | none => .error .typeError
    | some ad => PluginBase.subscribeGo p name (IteratorBase.make ad none options) ctx

/-- Embedding of `PluginBase.get_iterator(subscription)`: raise
`NotImplementedError` if the class has no iterator; otherwise construct an
iterator bound to the persisted subscription.  No `init()` call, session
untouched. -/
def PluginBase.get_iterator (p : Plugin) (sub : Subscription) (ctx : Ctx) :
    Except Err (Iterator × Ctx) :=
  match p.iterator with
  | none => .error .notImplemented
  | some ad => .ok (IteratorBase.make ad (some sub) none, ctx)

/-- Embedding of `ReverseSearchPluginBase.search(options)`: the override's
body is identical to `PluginBase.search`. -/
def ReverseSearchPluginBase.search (p : Plugin) (options : DynJson) (ctx : Ctx) :
    Except Err (Iterator × Ctx) :=
  match p.iterator with
  | none => .error .notImplemented
  | some ad =>
    let options := Dyn.from_json options
    .ok (IteratorBase.make ad none (some options), ctx)

/-- Embedding of `ReverseSearchPluginBase.create_subscription`: always
raises `NotImplementedError`.  Note the name: `PluginBase` has no method
called `create_subscription`, so this override shadows nothing and is
never reached through the `subscribe` entry point. -/
def ReverseSearchPluginBase.create_subscription (p : Plugin) (name : String)
    (options : Option Dyn) (iteratorArg : Option Iterator) (ctx : Ctx) :
    Except Err (Iterator × Ctx) :=
  .error .notImplemented

/-- Embedding of `ReverseSearchPluginBase.get_iterator`: always raises
`NotImplementedError`. -/
def ReverseSearchPluginBase.get_iterator (p : Plugin) (sub : Subscription) (ctx : Ctx) :
    Except Err (Iterator × Ctx) :=
  .error .notImplemented

/-- Method dispatch for `search`: `ReverseSearchPluginBase` overrides it
(with an identical body). -/
def Plugin.search (p : Plugin) (options : DynJson) (ctx : Ctx) :
    Except Err (Iterator × Ctx) :=
  match p.kind with
  | .base => PluginBase.search p options ctx
  | .reverseSearch => ReverseSearchPluginBase.search p options ctx

/-- Method dispatch for `subscribe`: `ReverseSearchPluginBase` defines no
method named `subscribe`, so both classes resolve to
`PluginBase.subscribe`. -/
def Plugin.subscribe (p : Plugin) (name : String) (options : Option Dyn)
    (iteratorArg : Option Iterator) (ctx : Ctx) : Except Err (Iterator × Ctx) :=
  PluginBase.subscribe p name options iteratorArg ctx

/-- Method dispatch for `get_iterator`: overridden by
`ReverseSearchPluginBase` to raise immediately. -/
def Plugin.get_iterator (p : Plugin) (sub : Subscription) (ctx : Ctx) :
    Except Err (Iterator × Ctx) :=
  match p.kind with
  | .base => PluginBase.get_iterator p sub ctx
  | .reverseSearch => ReverseSearchPluginBase.get_iterator p sub ctx

/-! ## Supporting lemmas -/

/-- Splitting on a character that does not occur leaves the list whole. -/
theorem splitOnChar_eq_of_not_mem {c : Char} {l : List Char} (h : c ∉ l) :
    splitOnChar c l = [l] := by
  induction l with
  | nil => rfl
  | cons x xs ih =>
    have hx : ¬ (x = c) := fun hxc => h (by simp [hxc])
    have hxs : c ∉ xs := fun hm => h (List.mem_cons_of_mem _ hm)
    simp [splitOnChar, hx, ih hxs]

/-- Stripping leading dots from a dot-free list is the identity. -/
theorem lstripDot_eq_of_not_mem {l : List Char} (h : '.' ∉ l) :
    lstripDot l = l := by
  cases l with
  | nil => rfl
  | cons x xs =>
    have hx : ¬ (x = '.') := fun he => h (by simp [he])
    simp [lstripDot, hx]

/-- The last element of a list is a member. -/
theorem mem_of_getLastEq {l : List Char} {c : Char} (h : l.getLast? = some c) :
    c ∈ l := by
  induction l with
  | nil => simp [List.getLast?] at h
  | cons x xs ih =>
    cases xs with
    | nil =>
      simp [List.getLast?] at h
      simp [h]
    | cons y ys =>
      rw [List.getLast?_cons_cons] at h
      exact List.mem_cons_of_mem _ (ih h)

/-- The name of a slash-free path is the path itself. -/
theorem pathName_eq_of_not_mem {l : List Char} (h : '/' ∉ l) :
    pathName l = l := by
  unfold pathName
  rw [splitOnChar_eq_of_not_mem h]
  by_cases hl : l = []
  · subst hl; rfl
  · simp [List.filter, hl]

/-- A file name containing no dot and no slash yields an empty `ext`. -/
theorem importExt_eq_nil {l : List Char} (hd : '.' ∉ l) (hs : '/' ∉ l) :
    importExt l = [] := by
  unfold importExt nameSuffixes
  rw [pathName_eq_of_not_mem hs]
  rw [if_neg (fun he => hd (mem_of_getLastEq he))]
  rw [lstripDot_eq_of_not_mem hd, splitOnChar_eq_of_not_mem hd]
  rfl

/-! ## Claims -/

/-- C1: for every File with an assigned id, `_get_file_paths` computes the
original destination as `<files_root>/<id div slot_size>/<id>` with no
extension suffix appended, and the thumbnail destination as
`<thumbs_root>/<id div slot_size>/<id>.jpg`; the result depends only on
the id (and the fixed configuration), so two Files with the same id get
identical paths regardless of their other fields; with
`slot_size = 1000` and `id = 2500` the shard is `2` and the paths are
`<files_root>/2/2500` and `<thumbs_root>/2/2500.jpg`. -/
theorem C1_get_file_paths :
    (∀ c f, hoordu.get_file_paths c f =
      (hoordu.filespath c ++ "/" ++ toString (f.id / c.files_slot_size) ++ "/" ++ toString f.id,
       hoordu.thumbspath c ++ "/" ++ toString (f.id / c.files_slot_size) ++ "/" ++ toString f.id ++ ".jpg"))
    ∧ (∀ c f g, f.id = g.id → hoordu.get_file_paths c f = hoordu.get_file_paths c g)
    ∧ (∀ c f, c.files_slot_size = 1000 → f.id = 2500 →
        hoordu.file_slot c f = 2 ∧
        hoordu.get_file_paths c f =
          (hoordu.filespath c ++ "/2/2500", hoordu.thumbspath c ++ "/2/2500.jpg")) := by
  have hfmt : ∀ c f, hoordu.get_file_paths c f =
      (hoordu.filespath c ++ "/" ++ toString (f.id / c.files_slot_size) ++ "/" ++ toString f.id,
       hoordu.thumbspath c ++ "/" ++ toString (f.id / c.files_slot_size) ++ "/" ++ toString f.id ++ ".jpg") := by
    intro c f
    simp [hoordu.get_file_paths, hoordu.file_slot, ite_self]
  have happ : ∀ (a b : String), a ++ b = ⟨a.data ++ b.data⟩ := fun a b => rfl
  refine ⟨hfmt, ?_, ?_⟩
  · intro c f g h
    rw [hfmt c f, hfmt c g, h]
  · intro c f hc hid
    constructor
    · simp [hoordu.file_slot, hc, hid]
    · rw [hfmt c f, hc, hid]
      have h2 : (2500 : Nat) / 1000 = 2 := by norm_num
      rw [h2]
      have hA : ∀ (a : String),
          a ++ "/" ++ toString (2 : Nat) ++ "/" ++ toString (2500 : Nat) = a ++ "/2/2500" := by
        intro a
        have hd : (((a.data ++ ['/']) ++ ['2']) ++ ['/']) ++ ['2', '5', '0', '0'] =
            a.data ++ ['/', '2', '/', '2', '5', '0', '0'] := by simp
        exact congrArg String.mk hd
      have hB : ∀ (a : String),
          a ++ "/" ++ toString (2 : Nat) ++ "/" ++ toString (2500 : Nat) ++ ".jpg" =
            a ++ "/2/2500.jpg" := by
        intro a
        have hd : ((((a.data ++ ['/']) ++ ['2']) ++ ['/']) ++ ['2', '5', '0', '0']) ++ ['.', 'j', 'p', 'g'] =
            a.data ++ ['/', '2', '/', '2', '5', '0', '0', '.', 'j', 'p', 'g'] := by simp
        exact congrArg String.mk hd
      rw [hA, hB]

/-- Witness for C1 at a concrete configuration and two concrete Files
sharing id 2500 but differing in every other field. -/
theorem C1_get_file_paths_witness :
    hoordu.get_file_paths ⟨"", 1000⟩ ⟨2500, "", "", "tar.gz", false, false⟩ =
      hoordu.get_file_paths ⟨"", 1000⟩ ⟨2500, "h", "m", "", true, true⟩ ∧
    hoordu.file_slot ⟨"", 1000⟩ ⟨2500, "", "", "tar.gz", false, false⟩ = 2 ∧
    hoordu.get_file_paths ⟨"", 1000⟩ ⟨2500, "", "", "tar.gz", false, false⟩ =
      (hoordu.filespath ⟨"", 1000⟩ ++ "/2/2500", hoordu.thumbspath ⟨"", 1000⟩ ++ "/2/2500.jpg") := by
  refine ⟨C1_get_file_paths.2.1 ⟨"", 1000⟩ _ _ rfl, ?_, ?_⟩
  · exact (C1_get_file_paths.2.2 ⟨"", 1000⟩ _ rfl rfl).1
  · exact (C1_get_file_paths.2.2 ⟨"", 1000⟩ _ rfl rfl).2

/-- C2: when `import_file` is given an original path, the File's `ext` is
set to the concatenation of all dot-suffixes of the original filename with
the single leading dot stripped: `photo.jpeg` yields `"jpeg"`,
`archive.tar.gz` yields `"tar.gz"`, and a filename with no dot yields
`""`. -/
theorem C2_import_ext :
    (∀ c env fs f thumb mv o,
        (hoordu.import_file c env fs f (some o) thumb mv).file.ext = importExtS o)
    ∧ importExtS "photo.jpeg" = "jpeg"
    ∧ importExtS "archive.tar.gz" = "tar.gz"
    ∧ (∀ s : String, '.' ∉ s.data → '/' ∉ s.data → importExtS s = "") := by
  refine ⟨?_, by decide, by decide, ?_⟩
  · intro c env fs f thumb mv o
    cases thumb <;> cases ho : fs.origOk <;> cases ht : fs.thumbOk <;>
      simp [hoordu.import_file, hoordu.importThumbStep, ho, ht]
  · intro s hd hs
    unfold importExtS
    rw [importExt_eq_nil hd hs]

/-- Witness for C2: a concrete `import_file` call stamps the derived
extension, and a concrete dot-free filename yields the empty extension. -/
theorem C2_import_ext_witness :
    (hoordu.import_file ⟨"", 1000⟩ ⟨fun _ => "", fun _ => ""⟩ ⟨true, true⟩
        ⟨1, "", "", "", false, false⟩ (some "archive.tar.gz") none false).file.ext =
      importExtS "archive.tar.gz"
    ∧ importExtS "photo" = "" := by
  exact ⟨C2_import_ext.1 ⟨"", 1000⟩ ⟨fun _ => "", fun _ => ""⟩ ⟨true, true⟩
      ⟨1, "", "", "", false, false⟩ none false "archive.tar.gz",
    C2_import_ext.2.2.2 "photo" (by decide) (by decide)⟩

/-- C5: the presence flags are set independently and additively: importing
only an original sets `file_present` and leaves `thumb_present` as it was
(so false on a fresh File stays false), and a subsequent import of only a
thumbnail on the same File sets `thumb_present` while `file_present`
remains true. -/
theorem C5_presence_additive :
    ∀ c env1 env2 fs1 fs2 f o t mv1 mv2,
      fs1.origOk = true → fs2.thumbOk = true →
      (hoordu.import_file c env1 fs1 f (some o) none mv1).file.file_present = true
      ∧ (hoordu.import_file c env1 fs1 f (some o) none mv1).file.thumb_present = f.thumb_present
      ∧ (hoordu.import_file c env2 fs2
            (hoordu.import_file c env1 fs1 f (some o) none mv1).file
            none (some t) mv2).file.thumb_present = true
      ∧ (hoordu.import_file c env2 fs2
            (hoordu.import_file c env1 fs1 f (some o) none mv1).file
            none (some t) mv2).file.file_present = true := by
  intro c env1 env2 fs1 fs2 f o t mv1 mv2 h1 h2
  simp [hoordu.import_file, hoordu.importThumbStep, h1, h2]

/-- Witness for C5 on a fresh File: after importing only the original,
`file_present` is true and `thumb_present` still false; after then
importing only the thumbnail, both flags are true. -/
theorem C5_presence_additive_witness :
    (hoordu.import_file ⟨"", 1000⟩ ⟨fun _ => "", fun _ => ""⟩ ⟨true, true⟩
        ⟨7, "", "", "", false, false⟩ (some "a.png") none false).file.file_present = true
    ∧ (hoordu.import_file ⟨"", 1000⟩ ⟨fun _ => "", fun _ => ""⟩ ⟨true, true⟩
        ⟨7, "", "", "", false, false⟩ (some "a.png") none false).file.thumb_present =
        (false : Bool)
    ∧ (hoordu.import_file ⟨"", 1000⟩ ⟨fun _ => "", fun _ => ""⟩ ⟨true, true⟩
        (hoordu.import_file ⟨"", 1000⟩ ⟨fun _ => "", fun _ => ""⟩ ⟨true, true⟩
          ⟨7, "", "", "", false, false⟩ (some "a.png") none false).file
        none (some "t.jpg") false).file.thumb_present = true
    ∧ (hoordu.import_file ⟨"", 1000⟩ ⟨fun _ => "", fun _ => ""⟩ ⟨true, true⟩
        (hoordu.import_file ⟨"", 1000⟩ ⟨fun _ => "", fun _ => ""⟩ ⟨true, true⟩
          ⟨7, "", "", "", false, false⟩ (some "a.png") none false).file
        none (some "t.jpg") false).file.file_present = true :=
  C5_presence_additive ⟨"", 1000⟩ ⟨fun _ => "", fun _ => ""⟩ ⟨fun _ => "", fun _ => ""⟩
    ⟨true, true⟩ ⟨true, true⟩ ⟨7, "", "", "", false, false⟩ "a.png" "t.jpg" false false
    rfl rfl

/-- C6: within one `import_file` call supplying both artifacts, a failed
thumbnail transfer surfaces as an error but does not roll back the
successfully imported original (`file_present` stays true), and a failed
original transfer leaves both flags exactly as they were — in particular a
`thumb_present` set by an earlier call survives. -/
theorem C6_failure_independent :
    ∀ c env fs f o t mv,
      (fs.origOk = true → fs.thumbOk = false →
        (hoordu.import_file c env fs f (some o) (some t) mv).ok = false
        ∧ (hoordu.import_file c env fs f (some o) (some t) mv).file.file_present = true
        ∧ (hoordu.import_file c env fs f (some o) (some t) mv).file.thumb_present
            = f.thumb_present)
      ∧ (fs.origOk = false →
        (hoordu.import_file c env fs f (some o) (some t) mv).ok = false
        ∧ (hoordu.import_file c env fs f (some o) (some t) mv).file.file_present
            = f.file_present
        ∧ (hoordu.import_file c env fs f (some o) (some t) mv).file.thumb_present
            = f.thumb_present) := by
  intro c env fs f o t mv
  constructor
  · intro h1 h2
    simp [hoordu.import_file, hoordu.importThumbStep, h1, h2]
  · intro h1
    simp [hoordu.import_file, hoordu.importThumbStep, h1]

/-- Witness for C6: concrete failing transfers; the original import
survives a failed thumbnail, and a failed original leaves the previously
set thumbnail flag alone. -/
theorem C6_failure_independent_witness :
    ((hoordu.import_file ⟨"", 1000⟩ ⟨fun _ => "", fun _ => ""⟩ ⟨true, false⟩
        ⟨7, "", "", "", false, false⟩ (some "a.png") (some "t.jpg") false).ok = false
      ∧ (hoordu.import_file ⟨"", 1000⟩ ⟨fun _ => "", fun _ => ""⟩ ⟨true, false⟩
          ⟨7, "", "", "", false, false⟩ (some "a.png") (some "t.jpg") false).file.file_present = true
      ∧ (hoordu.import_file ⟨"", 1000⟩ ⟨fun _ => "", fun _ => ""⟩ ⟨true, false⟩
          ⟨7, "", "", "", false, false⟩ (some "a.png") (some "t.jpg") false).file.thumb_present
          = (⟨7, "", "", "", false, false⟩ : File).thumb_present)
    ∧ ((hoordu.import_file ⟨"", 1000⟩ ⟨fun _ => "", fun _ => ""⟩ ⟨false, true⟩
        ⟨7, "", "", "", false, true⟩ (some "a.png") (some "t.jpg") false).ok = false
      ∧ (hoordu.import_file ⟨"", 1000⟩ ⟨fun _ => "", fun _ => ""⟩ ⟨false, true⟩
          ⟨7, "", "", "", false, true⟩ (some "a.png") (some "t.jpg") false).file.file_present
          = (⟨7, "", "", "", false, true⟩ : File).file_present
      ∧ (hoordu.import_file ⟨"", 1000⟩ ⟨fun _ => "", fun _ => ""⟩ ⟨false, true⟩
          ⟨7, "", "", "", false, true⟩ (some "a.png") (some "t.jpg") false).file.thumb_present
          = (⟨7, "", "", "", false, true⟩ : File).thumb_present) :=
  ⟨(C6_failure_independent ⟨"", 1000⟩ ⟨fun _ => "", fun _ => ""⟩ ⟨true, false⟩
      ⟨7, "", "", "", false, false⟩ "a.png" "t.jpg" false).1 rfl rfl,
   (C6_failure_independent ⟨"", 1000⟩ ⟨fun _ => "", fun _ => ""⟩ ⟨false, true⟩
      ⟨7, "", "", "", false, true⟩ "a.png" "t.jpg" false).2 rfl⟩

/-- C10: `import_file` mutates the File's metadata before any transfer is
attempted: when both artifacts are supplied and the original transfer
fails, the call errors with `hash`, `mime` and `ext` already overwritten
from the original, both presence flags unchanged, and the only transfer
attempted is the original's — the thumbnail transfer never happens. -/
theorem C10_metadata_before_transfer :
    ∀ c env fs f o t mv, fs.origOk = false →
      (hoordu.import_file c env fs f (some o) (some t) mv).ok = false
      ∧ (hoordu.import_file c env fs f (some o) (some t) mv).file.hash = env.md5 o
      ∧ (hoordu.import_file c env fs f (some o) (some t) mv).file.mime = env.mime_from_file o
      ∧ (hoordu.import_file c env fs f (some o) (some t) mv).file.ext = importExtS o
      ∧ (hoordu.import_file c env fs f (some o) (some t) mv).file.file_present = f.file_present
      ∧ (hoordu.import_file c env fs f (some o) (some t) mv).file.thumb_present = f.thumb_present
      ∧ (hoordu.import_file c env fs f (some o) (some t) mv).attempts =
          [(o, (hoordu.get_file_paths c
            { f with hash := env.md5 o, mime := env.mime_from_file o, ext := importExtS o }).1)] := by
  intro c env fs f o t mv h1
  simp [hoordu.import_file, hoordu.importThumbStep, h1]

/-- Witness for C10 at a concrete failing original transfer. -/
theorem C10_metadata_before_transfer_witness :
    (hoordu.import_file ⟨"", 1000⟩ ⟨fun _ => "H", fun _ => "M"⟩ ⟨false, true⟩
        ⟨7, "", "", "", false, false⟩ (some "a.png") (some "t.jpg") false).ok = false
    ∧ (hoordu.import_file ⟨"", 1000⟩ ⟨fun _ => "H", fun _ => "M"⟩ ⟨false, true⟩
        ⟨7, "", "", "", false, false⟩ (some "a.png") (some "t.jpg") false).file.hash =
        (⟨fun _ => "H", fun _ => "M"⟩ : Env).md5 "a.png"
    ∧ (hoordu.import_file ⟨"", 1000⟩ ⟨fun _ => "H", fun _ => "M"⟩ ⟨false, true⟩
        ⟨7, "", "", "", false, false⟩ (some "a.png") (some "t.jpg") false).file.mime =
        (⟨fun _ => "H", fun _ => "M"⟩ : Env).mime_from_file "a.png"
    ∧ (hoordu.import_file ⟨"", 1000⟩ ⟨fun _ => "H", fun _ => "M"⟩ ⟨false, true⟩
        ⟨7, "", "", "", false, false⟩ (some "a.png") (some "t.jpg") false).file.ext =
        importExtS "a.png"
    ∧ (hoordu.import_file ⟨"", 1000⟩ ⟨fun _ => "H", fun _ => "M"⟩ ⟨false, true⟩
        ⟨7, "", "", "", false, false⟩ (some "a.png") (some "t.jpg") false).file.file_present =
        (⟨7, "", "", "", false, false⟩ : File).file_present
    ∧ (hoordu.import_file ⟨"", 1000⟩ ⟨fun _ => "H", fun _ => "M"⟩ ⟨false, true⟩
        ⟨7, "", "", "", false, false⟩ (some "a.png") (some "t.jpg") false).file.thumb_present =
        (⟨7, "", "", "", false, false⟩ : File).thumb_present
    ∧ (hoordu.import_file ⟨"", 1000⟩ ⟨fun _ => "H", fun _ => "M"⟩ ⟨false, true⟩
        ⟨7, "", "", "", false, false⟩ (some "a.png") (some "t.jpg") false).attempts =
        [("a.png", (hoordu.get_file_paths ⟨"", 1000⟩
          { (⟨7, "", "", "", false, false⟩ : File) with
              hash := (⟨fun _ => "H", fun _ => "M"⟩ : Env).md5 "a.png",
              mime := (⟨fun _ => "H", fun _ => "M"⟩ : Env).mime_from_file "a.png",
              ext := importExtS "a.png" }).1)] :=
  C10_metadata_before_transfer ⟨"", 1000⟩ ⟨fun _ => "H", fun _ => "M"⟩ ⟨false, true⟩
    ⟨7, "", "", "", false, false⟩ "a.png" "t.jpg" false rfl

/-- Registration preserves session well-formedness: the freshly flushed
row gets the identifier `nextId`, which is then advanced. -/
theorem register_service_WF {s : Session} {name : String} (h : Session.WF s) :
    Session.WF (hoordu.register_service s name).2 := by
  cases hf : s.services.find? (fun v => v.name == name) with
  | some sv => simpa [hoordu.register_service, hf] using h
  | none =>
    simp only [hoordu.register_service, hf, Session.addFlushService]
    intro sv hsv
    rcases List.mem_append.mp hsv with hmem | hmem
    · obtain ⟨hsome, hlt⟩ := h sv hmem
      exact ⟨hsome, Nat.lt_succ_of_lt hlt⟩
    · simp at hmem
      subst hmem
      simp

/-- C4: `register_service` is get-or-create and idempotent: a name already
present is returned unchanged with the session untouched; an absent name
yields a new Service with version 0 that is staged and flushed (so it
carries an identifier) and appended to the table; calling twice with the
same name returns the same Service and session both times; and a call
with a fresh different name creates a second, independent Service (new
name, version 0, a different identifier) while the first row stays in the
table. -/
theorem C4_register_service :
    (∀ s name sv, s.services.find? (fun v => v.name == name) = some sv →
        hoordu.register_service s name = (sv, s))
    ∧ (∀ s name, s.services.find? (fun v => v.name == name) = none →
        (hoordu.register_service s name).1.version = 0
        ∧ (hoordu.register_service s name).1.id = some s.nextId
        ∧ (hoordu.register_service s name).1.name = name
        ∧ (hoordu.register_service s name).2.services
            = s.services ++ [(hoordu.register_service s name).1])
    ∧ (∀ s name,
        hoordu.register_service (hoordu.register_service s name).2 name
          = hoordu.register_service s name)
    ∧ (∀ s name name2, Session.WF s → name2 ≠ name →
        s.services.find? (fun v => v.name == name2) = none →
        (hoordu.register_service (hoordu.register_service s name).2 name2).1.name = name2
        ∧ (hoordu.register_service (hoordu.register_service s name).2 name2).1.version = 0
        ∧ (hoordu.register_service (hoordu.register_service s name).2 name2).1.id
            ≠ (hoordu.register_service s name).1.id
        ∧ (hoordu.register_service s name).1
            ∈ (hoordu.register_service (hoordu.register_service s name).2 name2).2.services) := by
  have hfound : ∀ s name sv, s.services.find? (fun v => v.name == name) = some sv →
      hoordu.register_service s name = (sv, s) := by
    intro s name sv h
    simp [hoordu.register_service, h]
  have hcreate : ∀ s name, s.services.find? (fun v => v.name == name) = none →
      hoordu.register_service s name =
        (({ id := some s.nextId, name := name, version := 0 } : Service),
         { s with
            services := s.services ++ [{ id := some s.nextId, name := name, version := 0 }],
            nextId := s.nextId + 1 }) := by
    intro s name h
    simp [hoordu.register_service, h, Session.addFlushService]
  refine ⟨hfound, ?_, ?_, ?_⟩
  · intro s name h
    rw [hcreate s name h]
    exact ⟨rfl, rfl, rfl, rfl⟩
  · intro s name
    cases hf : s.services.find? (fun v => v.name == name) with
    | some sv =>
      rw [hfound s name sv hf]
      exact hfound s name sv hf
    | none =>
      rw [hcreate s name hf]
      apply hfound
      rw [List.find?_append, hf]
      simp
  · intro s name name2 hwf hne hf2
    cases hf : s.services.find? (fun v => v.name == name) with
    | some sv =>
      rw [hfound s name sv hf]
      rw [hcreate s name2 hf2]
      have hmem := List.mem_of_find?_eq_some hf
      obtain ⟨hsome, hlt⟩ := hwf sv hmem
      obtain ⟨i, hi⟩ := Option.isSome_iff_exists.mp hsome
      rw [hi] at hlt
      simp only [Option.getD_some] at hlt
      refine ⟨rfl, rfl, ?_, List.mem_append_left _ hmem⟩
      rw [hi]
      intro he
      have : s.nextId = i := by simpa using he
      omega
    | none =>
      rw [hcreate s name hf]
      have hb : (({ id := some s.nextId, name := name, version := 0 } : Service).name == name2)
          = false := by
        simp
        exact Ne.symm hne
      have hf2' :
          ((s.services ++ [({ id := some s.nextId, name := name, version := 0 } : Service)]).find?
            (fun v => v.name == name2)) = none := by
        rw [List.find?_append, hf2]
        simp [List.find?, hb]
      rw [hcreate _ name2 hf2']
      refine ⟨rfl, rfl, ?_, ?_⟩
      · intro he
        simp at he
      · exact List.mem_append_left _ (List.mem_append_right _ (by simp))

/-- Witness for C4: on a concrete session, registering the name `pixiv`
twice returns the same Service and session, and registering a second name
then creates an independent Service. -/
theorem C4_register_service_witness :
    (hoordu.register_service ⟨[⟨some 1, "pixiv", 3⟩], [], 5⟩ "pixiv"
      = (⟨some 1, "pixiv", 3⟩, ⟨[⟨some 1, "pixiv", 3⟩], [], 5⟩))
    ∧ ((hoordu.register_service ⟨[], [], 5⟩ "pixiv").1.version = 0
      ∧ (hoordu.register_service ⟨[], [], 5⟩ "pixiv").1.id = some 5)
    ∧ (hoordu.register_service (hoordu.register_service ⟨[], [], 5⟩ "pixiv").2 "pixiv"
      = hoordu.register_service ⟨[], [], 5⟩ "pixiv")
    ∧ ((hoordu.register_service (hoordu.register_service ⟨[], [], 5⟩ "pixiv").2 "twitter").1.id
      ≠ (hoordu.register_service ⟨[], [], 5⟩ "pixiv").1.id) := by
  refine ⟨C4_register_service.1 _ "pixiv" _ (by decide), ?_, ?_, ?_⟩
  · have h := C4_register_service.2.1 ⟨[], [], 5⟩ "pixiv" (by decide)
    exact ⟨h.1, h.2.1⟩
  · exact C4_register_service.2.2.1 ⟨[], [], 5⟩ "pixiv"
  · exact (C4_register_service.2.2.2 ⟨[], [], 5⟩ "pixiv" "twitter"
      (by decide) (by decide) (by decide)).2.2.1

/-- C8: iterator binding has exactly two modes.  Constructed from a
persisted Subscription, the iterator deserializes both `options` and
`state` from the stored values; constructed for an ephemeral search, it
takes `options` from the supplied argument, starts with an empty `state`,
and a successful `search` call persists nothing (the context, session
included, is returned untouched). -/
theorem C8_iterator_binding :
    (∀ ad sub opts,
        (IteratorBase.make ad (some sub) opts).options = some (Dyn.from_json sub.options)
        ∧ (IteratorBase.make ad (some sub) opts).state = Dyn.from_json sub.state
        ∧ (IteratorBase.make ad (some sub) opts).subscription = some sub)
    ∧ (∀ ad opts,
        (IteratorBase.make ad none opts).options = opts
        ∧ (IteratorBase.make ad none opts).state = Dyn.empty
        ∧ (IteratorBase.make ad none opts).subscription = none)
    ∧ (∀ p o ctx it ctx', Plugin.search p o ctx = .ok (it, ctx') →
        ctx' = ctx ∧ it.subscription = none ∧ it.options = some (Dyn.from_json o)
        ∧ it.state = Dyn.empty) := by
  refine ⟨fun ad sub opts => ⟨rfl, rfl, rfl⟩, fun ad opts => ⟨rfl, rfl, rfl⟩, ?_⟩
  intro p o ctx it ctx' h
  cases hk : p.kind <;>
    cases hi : p.iterator <;>
      simp [Plugin.search, PluginBase.search, ReverseSearchPluginBase.search, hk, hi] at h <;>
        obtain ⟨h1, h2⟩ := h <;>
          subst h1 <;> subst h2 <;> exact ⟨rfl, rfl, rfl, rfl⟩

/-- Witness for C8 at a concrete subscription, concrete options and a
concrete successful `search` call. -/
theorem C8_iterator_binding_witness :
    ((IteratorBase.make ⟨fun o s => (o, s)⟩
        (some ⟨some 3, ⟨some 1, "svc", 0⟩, "n", "r", ⟨⟨[("k", "v")]⟩⟩, ⟨⟨[("s", "t")]⟩⟩⟩)
        (some ⟨[("x", "y")]⟩)).options = some (Dyn.from_json ⟨⟨[("k", "v")]⟩⟩)
      ∧ (IteratorBase.make ⟨fun o s => (o, s)⟩
        (some ⟨some 3, ⟨some 1, "svc", 0⟩, "n", "r", ⟨⟨[("k", "v")]⟩⟩, ⟨⟨[("s", "t")]⟩⟩⟩)
        (some ⟨[("x", "y")]⟩)).state = Dyn.from_json ⟨⟨[("s", "t")]⟩⟩)
    ∧ ((IteratorBase.make ⟨fun o s => (o, s)⟩ none (some ⟨[("x", "y")]⟩)).options
        = some ⟨[("x", "y")]⟩
      ∧ (IteratorBase.make ⟨fun o s => (o, s)⟩ none (some ⟨[("x", "y")]⟩)).state = Dyn.empty)
    ∧ (∀ it ctx',
        Plugin.search
          ⟨.base, some ⟨fun o s => (o, s)⟩, ⟨some 1, "svc", 0⟩, fun _ => "r"⟩
          ⟨⟨[("x", "y")]⟩⟩ ⟨⟨[], [], 0⟩, 0⟩ = .ok (it, ctx') →
        ctx' = ⟨⟨[], [], 0⟩, 0⟩ ∧ it.state = Dyn.empty) := by
  have h1 := C8_iterator_binding.1 ⟨fun o s => (o, s)⟩
    ⟨some 3, ⟨some 1, "svc", 0⟩, "n", "r", ⟨⟨[("k", "v")]⟩⟩, ⟨⟨[("s", "t")]⟩⟩⟩
    (some ⟨[("x", "y")]⟩)
  have h2 := C8_iterator_binding.2.1 ⟨fun o s => (o, s)⟩ (some ⟨[("x", "y")]⟩)
  refine ⟨⟨h1.1, h1.2.1⟩, ⟨h2.1, h2.2.1⟩, ?_⟩
  intro it ctx' h
  have h3 := C8_iterator_binding.2.2
    ⟨.base, some ⟨fun o s => (o, s)⟩, ⟨some 1, "svc", 0⟩, fun _ => "r"⟩
    ⟨⟨[("x", "y")]⟩⟩ ⟨⟨[], [], 0⟩, 0⟩ it ctx' h
  exact ⟨h3.1, h3.2.2.2⟩

/-- C9: an iterator's `init()` runs exactly once per subscription, during
`subscribe` (counted by the context's instrumentation), and never runs
when an iterator is obtained for an existing Subscription via
`get_iterator` or for an ephemeral search via `search` (whose
constructions leave the count unchanged). -/
theorem C9_init_exactly_once :
    (∀ p name opts itArg ctx it ctx',
        Plugin.subscribe p name opts itArg ctx = .ok (it, ctx') →
        ctx'.initCalls = ctx.initCalls + 1)
    ∧ (∀ p sub ctx it ctx',
        Plugin.get_iterator p sub ctx = .ok (it, ctx') →
        ctx'.initCalls = ctx.initCalls)
    ∧ (∀ p o ctx it ctx',
        Plugin.search p o ctx = .ok (it, ctx') →
        ctx'.initCalls = ctx.initCalls) := by
  refine ⟨?_, ?_, ?_⟩
  · intro p name opts itArg ctx it ctx' h
    have hgo : ∀ it0, PluginBase.subscribeGo p name it0 ctx = .ok (it, ctx') →
        ctx'.initCalls = ctx.initCalls + 1 := by
      intro it0 hg
      cases ho : (Iterator.runInit it0 ctx).1.options with
      | none => simp [PluginBase.subscribeGo, ho] at hg
      | some o =>
        simp [PluginBase.subscribeGo, ho] at hg
        obtain ⟨h1, h2⟩ := hg
        rw [← h2]
        simp [Iterator.runInit]
    cases hArg : itArg with
    | some it0 =>
      simp only [Plugin.subscribe, PluginBase.subscribe, hArg] at h
      exact hgo it0 h
    | none =>
      cases hi : p.iterator with
      | none => simp [Plugin.subscribe, PluginBase.subscribe, hArg, hi] at h
      | some ad =>
        simp only [Plugin.subscribe, PluginBase.subscribe, hArg, hi] at h
        exact hgo _ h
  · intro p sub ctx it ctx' h
    cases hk : p.kind <;> cases hi : p.iterator <;>
      simp [Plugin.get_iterator, PluginBase.get_iterator,
        ReverseSearchPluginBase.get_iterator, hk, hi] at h
    obtain ⟨h1, h2⟩ := h
    rw [← h2]
  · intro p o ctx it ctx' h
    cases hk : p.kind <;> cases hi : p.iterator <;>
      simp [Plugin.search, PluginBase.search, ReverseSearchPluginBase.search, hk, hi] at h <;>
        obtain ⟨h1, h2⟩ := h <;> rw [← h2]

/-- Witness for C9: concrete successful `subscribe`, `get_iterator` and
`search` calls, with the init-invocation count advancing only under
`subscribe`. -/
theorem C9_init_exactly_once_witness :
    ((⟨⟨[], [⟨some 0, ⟨some 1, "svc", 0⟩, "n", "r", ⟨⟨[]⟩⟩, ⟨⟨[]⟩⟩⟩], 1⟩, 5⟩ : Ctx).initCalls
      = (⟨⟨[], [], 0⟩, 4⟩ : Ctx).initCalls + 1)
    ∧ ((⟨⟨[], [], 0⟩, 4⟩ : Ctx).initCalls = (⟨⟨[], [], 0⟩, 4⟩ : Ctx).initCalls)
    ∧ ((⟨⟨[], [], 0⟩, 4⟩ : Ctx).initCalls = (⟨⟨[], [], 0⟩, 4⟩ : Ctx).initCalls) := by
  refine ⟨?_, ?_, ?_⟩
  · exact C9_init_exactly_once.1
      ⟨.base, some ⟨fun o s => (o, s)⟩, ⟨some 1, "svc", 0⟩, fun _ => "r"⟩
      "n" (some ⟨[]⟩) none ⟨⟨[], [], 0⟩, 4⟩
      ⟨⟨fun o s => (o, s)⟩, some ⟨some 0, ⟨some 1, "svc", 0⟩, "n", "r", ⟨⟨[]⟩⟩, ⟨⟨[]⟩⟩⟩,
        some ⟨[]⟩, ⟨[]⟩⟩
      ⟨⟨[], [⟨some 0, ⟨some 1, "svc", 0⟩, "n", "r", ⟨⟨[]⟩⟩, ⟨⟨[]⟩⟩⟩], 1⟩, 5⟩
      rfl
  · exact C9_init_exactly_once.2.1
      ⟨.base, some ⟨fun o s => (o, s)⟩, ⟨some 1, "svc", 0⟩, fun _ => "r"⟩
      ⟨some 0, ⟨some 1, "svc", 0⟩, "n", "r", ⟨⟨[]⟩⟩, ⟨⟨[]⟩⟩⟩ ⟨⟨[], [], 0⟩, 4⟩
      (IteratorBase.make ⟨fun o s => (o, s)⟩
        (some ⟨some 0, ⟨some 1, "svc", 0⟩, "n", "r", ⟨⟨[]⟩⟩, ⟨⟨[]⟩⟩⟩) none)
      ⟨⟨[], [], 0⟩, 4⟩ rfl
  · exact C9_init_exactly_once.2.2
      ⟨.base, some ⟨fun o s => (o, s)⟩, ⟨some 1, "svc", 0⟩, fun _ => "r"⟩
      ⟨⟨[]⟩⟩ ⟨⟨[], [], 0⟩, 4⟩ (IteratorBase.make ⟨fun o s => (o, s)⟩ none (some ⟨[]⟩))
      ⟨⟨[], [], 0⟩, 4⟩ rfl

/-- C7: a successful `subscribe(name, options)` builds an ephemeral
iterator from the options, runs its `init()`, persists (adds and flushes,
so an identifier is assigned) a new Subscription row carrying the
adapter-computed repr of the finalized options and their frozen serialized
values together with the frozen serialized state, binds the iterator to
that row, and returns the iterator. -/
theorem C7_subscribe :
    ∀ p name opts ctx ad it ctx',
      p.iterator = some ad →
      Plugin.subscribe p name opts none ctx = .ok (it, ctx') →
      ∃ sub : Subscription,
        it.subscription = some sub
        ∧ sub.name = name
        ∧ sub.source = p.source
        ∧ sub.id = some ctx.session.nextId
        ∧ ctx'.session.subs = ctx.session.subs ++ [sub]
        ∧ ctx'.initCalls = ctx.initCalls + 1
        ∧ (∃ o, it.options = some o ∧ sub.options = o.to_json)
        ∧ sub.state = it.state.to_json
        ∧ sub.repr = p.reprFn it.options
        ∧ it.options = (Iterator.runInit (IteratorBase.make ad none opts) ctx).1.options
        ∧ it.state = (Iterator.runInit (IteratorBase.make ad none opts) ctx).1.state := by
  intro p name opts ctx ad it ctx' hi h
  simp only [Plugin.subscribe, PluginBase.subscribe, hi] at h
  cases ho : (Iterator.runInit (IteratorBase.make ad none opts) ctx).1.options with
  | none => simp [PluginBase.subscribeGo, ho] at h
  | some o =>
    simp only [PluginBase.subscribeGo, ho] at h
    rw [Except.ok.injEq, Prod.mk.injEq] at h
    obtain ⟨h1, h2⟩ := h
    subst h1
    subst h2
    exact ⟨_, rfl, rfl, rfl, rfl, rfl, rfl, ⟨o, rfl, rfl⟩, rfl, rfl, rfl, rfl⟩

/-- Witness for C7: a concrete successful `subscribe` call on a base
plugin; the returned iterator is bound to a flushed Subscription row that
was appended to the session. -/
theorem C7_subscribe_witness :
    ∃ sub : Subscription,
      (⟨⟨fun o s => (o, s)⟩, some ⟨some 0, ⟨some 1, "svc", 0⟩, "n", "r", ⟨⟨[]⟩⟩, ⟨⟨[]⟩⟩⟩,
         some ⟨[]⟩, ⟨[]⟩⟩ : Iterator).subscription = some sub
      ∧ sub.name = "n"
      ∧ sub.id = some (⟨⟨[], [], 0⟩, 4⟩ : Ctx).session.nextId
      ∧ (⟨⟨[], [⟨some 0, ⟨some 1, "svc", 0⟩, "n", "r", ⟨⟨[]⟩⟩, ⟨⟨[]⟩⟩⟩], 1⟩, 5⟩ : Ctx).session.subs
          = (⟨⟨[], [], 0⟩, 4⟩ : Ctx).session.subs ++ [sub] := by
  obtain ⟨sub, h1, h2, h3, h4, h5, rest⟩ := C7_subscribe
    ⟨.base, some ⟨fun o s => (o, s)⟩, ⟨some 1, "svc", 0⟩, fun _ => "r"⟩ "n" (some ⟨[]⟩)
    ⟨⟨[], [], 0⟩, 4⟩ ⟨fun o s => (o, s)⟩
    ⟨⟨fun o s => (o, s)⟩, some ⟨some 0, ⟨some 1, "svc", 0⟩, "n", "r", ⟨⟨[]⟩⟩, ⟨⟨[]⟩⟩⟩,
      some ⟨[]⟩, ⟨[]⟩⟩
    ⟨⟨[], [⟨some 0, ⟨some 1, "svc", 0⟩, "n", "r", ⟨⟨[]⟩⟩, ⟨⟨[]⟩⟩⟩], 1⟩, 5⟩ rfl rfl
  exact ⟨sub, h1, h2, h4, h5⟩

/-- C3 (code-bug evidence): on a reverse-search plugin whose adapter has a
concrete iterator class, `get_iterator` does fail immediately with
`NotImplementedError`, as the claim states; but `subscribe` does not fail:
the disabling override in `ReverseSearchPluginBase` is named
`create_subscription`, which shadows nothing, so the inherited
`PluginBase.subscribe` runs — it invokes the iterator's `init()` (the
final context records one init call) and persists a new Subscription row
(the session's subscription table grows), contradicting the claim. -/
theorem C3_code_bug_eval :
    (Plugin.get_iterator
        ⟨.reverseSearch, some ⟨fun o s => (o, s)⟩, ⟨some 1, "rs", 0⟩, fun _ => "r"⟩
        ⟨some 0, ⟨some 1, "rs", 0⟩, "n", "r", ⟨⟨[]⟩⟩, ⟨⟨[]⟩⟩⟩ ⟨⟨[], [], 2⟩, 0⟩
      = .error .notImplemented)
    ∧ (∃ it, Plugin.subscribe
        ⟨.reverseSearch, some ⟨fun o s => (o, s)⟩, ⟨some 1, "rs", 0⟩, fun _ => "r"⟩
        "sub" (some ⟨[]⟩) none ⟨⟨[], [], 2⟩, 0⟩
      = .ok (it, ⟨⟨[], [⟨some 2, ⟨some 1, "rs", 0⟩, "sub", "r", ⟨⟨[]⟩⟩, ⟨⟨[]⟩⟩⟩], 3⟩, 1⟩))
    ∧ (ReverseSearchPluginBase.create_subscription
        ⟨.reverseSearch, some ⟨fun o s => (o, s)⟩, ⟨some 1, "rs", 0⟩, fun _ => "r"⟩
        "sub" (some ⟨[]⟩) none ⟨⟨[], [], 2⟩, 0⟩
      = .error .notImplemented) :=
  ⟨rfl, ⟨_, rfl⟩, rfl⟩
